import Mathlib

/-!
Verification of the SnorkTracker firmware core (src/tracker/Utils.h and
src/tracker/tracker.ino) against its natural-language specification.

Strings of the embedded platform are modelled as `List Char`, the C `long`
(32 bit on the target) as `Int` for the interval/debounce arithmetic (no
overflow occurs in the claims' domains) and as a `Nat` below `2^32` holding
the 32-bit two's-complement bit pattern for the CRC accumulator, where the
sign of the value matters because of the arithmetic right shift.
By-reference output parameters are modelled by returning the reference's
value after the call alongside the function's return value.
-/

/-! ### Character helpers (C `isspace`/digit tests, `atol`) -/

/-- The characters the C `isspace` accepts (space, \t, \n, vertical tab,
form feed, \r), used by `atol` to skip leading whitespace. -/
def isSpaceC (c : Char) : Bool :=
  c.toNat == 32 || c.toNat == 9 || c.toNat == 10 || c.toNat == 11 ||
  c.toNat == 12 || c.toNat == 13

/-- Decimal digit test, `'0' ≤ c ≤ '9'`. -/
def isDigitC (c : Char) : Bool :=
  48 ≤ c.toNat && c.toNat ≤ 57

/-- The decimal digit character for a value below ten (used to model
`sprintf` decimal output). -/
def digitCharC : Nat → Char
  | 0 => '0'
  | 1 => '1'
  | 2 => '2'
  | 3 => '3'
  | 4 => '4'
  | 5 => '5'
  | 6 => '6'
  | 7 => '7'
  | 8 => '8'
  | _ => '9'

/-- Decimal rendering of a natural number, most significant digit first;
models the digit output of `sprintf` with `%d` on a non-negative value. -/
def natDecimal (n : Nat) : List Char :=
  if h : n < 10 then [digitCharC n]
  else natDecimal (n / 10) ++ [digitCharC (n % 10)]
termination_by n
decreasing_by omega

/-- Numeric value of a digit string (most significant first). -/
def digitsVal (l : List Char) : Nat :=
  l.foldl (fun a c => 10 * a + (c.toNat - 48)) 0

/-- Model of the C `atol`: skip leading whitespace, optional sign, then
read digits greedily, stopping at the first non-digit; an empty digit
sequence yields 0. -/
def atol (s : List Char) : Int :=
  match s.dropWhile isSpaceC with
  | [] => 0
  | c :: rest =>
    if c = '-' then -(digitsVal (rest.takeWhile isDigitC) : Int)
    else if c = '+' then (digitsVal (rest.takeWhile isDigitC) : Int)
    else (digitsVal ((c :: rest).takeWhile isDigitC) : Int)

/-! ### Arduino String operations used by the codec (Utils.h) -/

/-- Model of `Trim` (Utils.h lines 168-188): remove from both ends every
leading/trailing occurrence of a character from `chars`. -/
def Trim (data chars : List Char) : List Char :=
  List.rdropWhile (fun c => chars.contains c) (List.dropWhile (fun c => chars.contains c) data)

/-- Index of the first occurrence of a character, `none` when absent
(the Arduino `indexOf` returns -1 for absence). -/
def findIdxC (c : Char) : List Char → Option Nat
  | [] => none
  | a :: l => if a = c then some 0 else (findIdxC c l).map (· + 1)

/-- Model of the Arduino `String.indexOf(ch, fromIndex)`: absolute index of
the first occurrence at or after `start`. -/
def indexOfFrom (l : List Char) (c : Char) (start : Nat) : Option Nat :=
  (findIdxC c (l.drop start)).map (start + ·)

/-- Model of the Arduino `String.substring(from, to)`: the characters at
indices `from` to `to - 1`. -/
def substringC (l : List Char) (a b : Nat) : List Char :=
  (l.drop a).take (b - a)

/-- Model of the Arduino one-argument `String.substring(from)`. -/
def substringFrom (l : List Char) (a : Nat) : List Char :=
  l.drop a

/-! ### The interval codec (Utils.h lines 190-259) -/

/-- Model of `sprintf` with `%d` on a C `int`. -/
def sprintfD (n : Int) : List Char :=
  if n < 0 then '-' :: natDecimal (-n).toNat else natDecimal n.toNat

/-- Model of `sprintf` with `%02d`: zero-pad a single non-negative digit to
width two, otherwise plain decimal output. -/
def sprintf02 (n : Int) : List Char :=
  if 0 ≤ n ∧ n < 10 then '0' :: natDecimal n.toNat else sprintfD n

/-- Model of `formatInterval` (Utils.h lines 191-207): render seconds as
`HH:MM:SS`, prefixed by `D ` only when the day count is positive.  The C
divisions on `long` truncate toward zero, hence `tdiv`/`tmod`. -/
def formatInterval (secs : Int) : List Char :=
  let days    := ((secs.tdiv 60).tdiv 60).tdiv 24
  let hours   := ((secs.tdiv 60).tdiv 60).tmod 24
  let minutes := (secs.tdiv 60).tmod 60
  let seconds := secs.tmod 60
  if days ≤ 0 then
    sprintf02 hours ++ ':' :: sprintf02 minutes ++ ':' :: sprintf02 seconds
  else
    sprintfD days ++ ' ' :: (sprintf02 hours ++ ':' :: sprintf02 minutes ++ ':' :: sprintf02 seconds)

/-- Segment extraction of `scanInterval` (Utils.h lines 210-243): trim
spaces, locate the first two colons (failing without two of them), split
off an optional day segment introduced by a space before the first colon,
and convert the four segments with `atol`.  An absent day segment leaves
the empty string, whose `atol` is 0. -/
def parseFields (interval0 : List Char) : Option (Int × Int × Int × Int) :=
  let interval := Trim interval0 [' ']
  match indexOfFrom interval ':' 0 with
  | none => none
  | some first =>
    match indexOfFrom interval ':' (first + 1) with
    | none => none
    | some second =>
      let dh : List Char × List Char :=
        match indexOfFrom interval ' ' 0 with
        | some space =>
          if space < first then
            (substringC interval 0 space, substringC interval (space + 1) first)
          else ([], substringC interval 0 first)
        | none => ([], substringC interval 0 first)
      let minutesString := substringC interval (first + 1) second
      let secondsString := substringFrom interval (second + 1)
      some (atol dh.1, atol dh.2, atol minutesString, atol secondsString)

/-- Model of `scanInterval` (Utils.h lines 210-259).  The by-reference
`secs` output is modelled by returning its value after the call together
with the boolean return value: it is written only in the success branch,
after the range checks pass. -/
def scanInterval (interval : List Char) (secs : Int) : Int × Bool :=
  match parseFields interval with
  | none => (secs, false)
  | some (days, hours, minutes, seconds) =>
    if 0 ≤ days ∧ 0 ≤ hours ∧ hours ≤ 23 ∧ 0 ≤ minutes ∧ minutes ≤ 59 ∧
       0 ≤ seconds ∧ seconds ≤ 59 then
      (days * 24 * 60 * 60 + hours * 60 * 60 + minutes * 60 + seconds, true)
    else (secs, false)

/-! ### The debounce helpers (Utils.h lines 52-72) -/

/-- Model of `secondsElapsed` (Utils.h lines 52-60).  `currentSec` is the
value the call reads from `secondsSincePowerOn()`; the first component of
the result is the value of the by-reference `lastCheckSec` after the call
(the function never writes it). -/
def secondsElapsed (currentSec lastCheckSec intervalSec : Int) : Int × Bool :=
  if lastCheckSec = 0 ∨ currentSec - lastCheckSec > intervalSec then
    (lastCheckSec, true)
  else (lastCheckSec, false)

/-- Model of `secondsElapsedAndUpdate` (Utils.h lines 63-72): same check,
but the by-reference `lastCheckSec` is set to `currentSec` when the check
succeeds. -/
def secondsElapsedAndUpdate (currentSec lastCheckSec intervalSec : Int) : Int × Bool :=
  if lastCheckSec = 0 ∨ currentSec - lastCheckSec > intervalSec then
    (currentSec, true)
  else (lastCheckSec, false)

/-! ### The checksum (Utils.h lines 74-86)

The accumulator is a C `long`: signed 32 bit on the target, so `crc >> 1`
is an arithmetic shift that keeps the sign bit.  The accumulator is
modelled as the `Nat` below `2^32` holding its bit pattern. -/

/-- Arithmetic right shift by one of a signed 32-bit value given as its bit
pattern: the sign bit is duplicated into the vacated position. -/
def sarShift32 (c : Nat) : Nat :=
  c / 2 + (if 2 ^ 31 ≤ c then 2 ^ 31 else 0)

/-- One bit step of the crc32 loop body (Utils.h line 83):
`crc = crc & 1 ? (crc >> 1) ^ POLY : crc >> 1` with `POLY = 0xedb88320`. -/
def crc32Step (c : Nat) : Nat :=
  if c % 2 = 1 then (sarShift32 c) ^^^ 0xedb88320 else sarShift32 c

/-- One byte of the crc32 loop (Utils.h lines 81-83): xor the byte into the
accumulator, then eight bit steps. -/
def crc32Byte (c b : Nat) : Nat :=
  crc32Step^[8] (c ^^^ b)

/-- Model of `crc32` (Utils.h lines 77-86): complement in, process every
byte, complement out. -/
def crc32 (crc : Nat) (buf : List Nat) : Nat :=
  (buf.foldl crc32Byte (crc ^^^ 0xFFFFFFFF)) ^^^ 0xFFFFFFFF

/-- Modelled from the spec: the standard CRC-32 bit step the spec's
contract describes, with a logical (unsigned) right shift instead of the
code's arithmetic shift.  Used only to compare the code's output with the
standard check value. -/
def crc32SpecStep (c : Nat) : Nat :=
  if c % 2 = 1 then (c / 2) ^^^ 0xedb88320 else c / 2

/-- Modelled from the spec: standard CRC-32 over one byte. -/
def crc32SpecByte (c b : Nat) : Nat :=
  crc32SpecStep^[8] (c ^^^ b)

/-- Modelled from the spec: standard CRC-32, complement-in/complement-out,
reflected polynomial `0xEDB88320`. -/
def crc32Spec (crc : Nat) (buf : List Nat) : Nat :=
  (buf.foldl crc32SpecByte (crc ^^^ 0xFFFFFFFF)) ^^^ 0xFFFFFFFF

/-- The ASCII bytes of the CRC reference input "123456789". -/
def crcCheckBytes : List Nat :=
  [49, 50, 51, 52, 53, 54, 55, 56, 57]

/-! ### The orchestrator (tracker.ino `loop`, lines 157-233)

The collaborators (modem power, modem session, SMS, MQTT, sensors, web
server, deep-sleep helper) live outside src/; per the spec they are
external and specified only at their interface boundary.  A tick therefore
takes an environment of the boolean answers the collaborators give during
that tick, and produces the successor global state together with the
ordered list of collaborator calls the tick performs.  Within one tick no
collaborator call happens between the code's two `waitingForGps()` reads
whenever the first read answers true, so one per-tick answer is faithful
for the gating claims. -/

/-- One collaborator call of the loop body, in program order. -/
inductive Event where
  | readVoltage
  | readBME
  | sendAT
  | webServerHandle
  | otaHandle
  | gsmPowerOn
  | gsmBegin (ok : Bool)
  | gsmStop
  | gsmPowerOff
  | gsmHandleClient
  | smsHandleClient
  | mqttHandleClient
  | wifiDisconnect
  | wifiModeOff
  | yieldEv
  | delayEv
  | deepSleepStart
deriving DecidableEq

/-- The three global booleans of tracker.ino (lines 65-67). -/
structure TrackerState where
  gsmHasPower : Bool
  isStarting : Bool
  isStopping : Bool
deriving DecidableEq

/-- The collaborator answers observed during one tick. -/
structure TickEnv where
  gsmPower : Bool        -- myOptions.gsmPower, the desired power
  beginOk : Bool         -- result of myGsmGps.begin()
  waitingForGps : Bool   -- myGsmGps.waitingForGps()
  waitingForMqtt : Bool  -- myMqtt.waitingForMqtt()
  haveToSleep : Bool     -- myDeepSleep.haveToSleep()
  isGsmActive : Bool     -- myGsmGps.isGsmActive at the sleep check
  isSmsEnabled : Bool    -- myOptions.isSmsEnabled
  isMqttEnabled : Bool   -- myOptions.isMqttEnabled
  consolePending : Bool  -- !myData.consoleCmds.isEmpty()
  isOtaActive : Bool     -- myData.isOtaActive
deriving DecidableEq

/-- Calls before the power-transition branches (lines 159-172): sensors,
console drain, web server, OTA. -/
def preEvents (env : TickEnv) : List Event :=
  [.readVoltage, .readBME] ++ (if env.consolePending then [.sendAT] else []) ++
  [.webServerHandle] ++ (if env.isOtaActive then [.otaHandle] else [])

/-- The "Starting gsm ?" branch (lines 174-187): under the not-busy guard,
power the rail and attempt `begin()`; on failure synchronously stop the
session and cut power again.  `isStarting` is set at the top of the branch
and cleared at its end, so it is false again when the branch returns. -/
def startStep (s : TrackerState) (env : TickEnv) : TrackerState × List Event :=
  if env.gsmPower && !s.gsmHasPower then
    if !s.isStarting && !s.isStopping then
      if env.beginOk then
        ({ s with gsmHasPower := true, isStarting := false }, [.gsmPowerOn, .gsmBegin true])
      else
        ({ s with gsmHasPower := false, isStarting := false },
         [.gsmPowerOn, .gsmBegin false, .gsmStop, .gsmPowerOff])
    else (s, [])
  else (s, [])

/-- The "Stopping gsm ?" branch (lines 189-198). -/
def stopStep (s : TrackerState) (env : TickEnv) : TrackerState × List Event :=
  if !env.gsmPower && s.gsmHasPower then
    if !s.isStarting && !s.isStopping then
      ({ s with gsmHasPower := false, isStopping := false }, [.gsmStop, .gsmPowerOff])
    else (s, [])
  else (s, [])

/-- The gsm processing block (lines 200-214): service the session, and the
SMS/MQTT handlers only when no GPS fix is pending. -/
def gsmProcessEvents (s : TrackerState) (env : TickEnv) : List Event :=
  if s.gsmHasPower && !s.isStarting && !s.isStopping then
    [.gsmHandleClient] ++
    (if !env.waitingForGps then
      (if env.isSmsEnabled then [.smsHandleClient] else []) ++
      (if env.isMqttEnabled then [.mqttHandleClient] else [])
     else [])
  else []

/-- The shutdown sequence performed when the sleep decision fires
(lines 219-227): conditional session stop, power cut, wireless off,
yield, suspend. -/
def sleepShutdownEvents (env : TickEnv) : List Event :=
  (if env.isGsmActive then [.gsmStop] else []) ++
  [.gsmPowerOff, .wifiDisconnect, .wifiModeOff, .yieldEv, .deepSleepStart]

/-- The deep-sleep block (lines 216-229): gated on no pending GPS fix and
no pending MQTT send, then on the scheduler's `haveToSleep()`. -/
def sleepEvents (env : TickEnv) : List Event :=
  if !env.waitingForGps && !env.waitingForMqtt then
    if env.haveToSleep then sleepShutdownEvents env else []
  else []

/-- One full iteration of `loop()` (lines 157-233): successor state and the
ordered collaborator calls. -/
def tick (s : TrackerState) (env : TickEnv) : TrackerState × List Event :=
  let s1e := startStep s env
  let s2e := stopStep s1e.1 env
  (s2e.1,
   preEvents env ++ s1e.2 ++ s2e.2 ++ gsmProcessEvents s2e.1 env ++
   sleepEvents env ++ [.yieldEv, .delayEv])

/-- The global state after `setup()`: the three booleans are
zero-initialised C++ globals (lines 65-67). -/
def initialState : TrackerState :=
  ⟨false, false, false⟩

/-- Iterate the loop over a list of per-tick environments. -/
def runTicks (s : TrackerState) (envs : List TickEnv) : TrackerState :=
  envs.foldl (fun st e => (tick st e).1) s

/-- The `Off` power state of the spec's state machine: rail unpowered and
no transition in progress. -/
def isOff (s : TrackerState) : Prop :=
  s.gsmHasPower = false ∧ s.isStarting = false ∧ s.isStopping = false

/-! ## Theorems -/

/-! ### Shared helper lemmas -/

/-- Incremental crc32 calls compose exactly: the `crc = ~crc` at function
entry cancels the complement the previous call applied on return. -/
theorem crc32_append (prev : Nat) (a b : List Nat) :
    crc32 prev (a ++ b) = crc32 (crc32 prev a) b := by
  simp [crc32, List.foldl_append, Nat.xor_cancel_right]

/-! ### C2: the CRC check value -/

set_option maxRecDepth 100000 in
/-- C2: the code's crc32 over the ASCII bytes "123456789" from state 0
does NOT return the standard CRC-32 check value 0xCBF43926: the signed
`long` accumulator makes `crc >> 1` an arithmetic shift, and the code
returns 0xF273791B.  The spec-modelled standard computation (logical
shift) does return 0xCBF43926, so everything but the shift matches the
contract. -/
theorem crc32_check_value_diverges :
    crc32 0 crcCheckBytes = 0xF273791B ∧
    crc32Spec 0 crcCheckBytes = 0xCBF43926 ∧
    crc32 0 crcCheckBytes ≠ 0xCBF43926 := by
  refine ⟨by decide, by decide, by decide⟩

/-! ### C8: chaining crc32 calls -/

/-- C8 counterexample: the claim that chaining differs from a one-pass
computation for some pair of buffers is false: no such pair exists. -/
theorem crc32_chaining_never_differs :
    ¬ ∃ a b : List Nat, crc32 (crc32 0 a) b ≠ crc32 0 (a ++ b) := by
  rintro ⟨a, b, h⟩
  exact h (crc32_append 0 a b).symm

/-- C8 amended: chaining two crc32 calls by passing the first call's
returned value as `previousState` of the second call yields exactly the
one-pass checksum of the concatenation, for every previous state and every
pair of buffers: the complement applied on return is cancelled by the
complement applied at entry. -/
theorem crc32_chaining_exact :
    ∀ (prev : Nat) (a b : List Nat),
      crc32 (crc32 prev a) b = crc32 prev (a ++ b) :=
  fun prev a b => (crc32_append prev a b).symm

/-! ### C7: the debounce contract -/

/-- C7 counterexample: after `secondsElapsedAndUpdate` returns true, an
immediately subsequent `secondsElapsed` with the same interval and the
same current-seconds value can return true again: with a negative
interval (current 5, lastCheck 0, interval -1), and also whenever the
observed current-seconds value is 0 (the update stores 0, which the next
call treats as the never-checked marker). -/
theorem debounce_cex :
    (secondsElapsedAndUpdate 5 0 (-1)).2 = true ∧
    (secondsElapsed 5 (secondsElapsedAndUpdate 5 0 (-1)).1 (-1)).2 = true ∧
    (secondsElapsedAndUpdate 0 0 3).2 = true ∧
    (secondsElapsed 0 (secondsElapsedAndUpdate 0 0 3).1 3).2 = true := by
  refine ⟨by decide, by decide, by decide, by decide⟩

/-- C7 amended: `secondsElapsed` is true whenever the lastCheck reference
holds 0, for every interval and current time; and for every non-negative
interval, after a `secondsElapsedAndUpdate` call that returns true while
observing a nonzero current-seconds value, an immediately subsequent call
with the same lastCheck reference, the same interval and the same
current-seconds value returns false. -/
theorem debounce_contract :
    (∀ current interval : Int, (secondsElapsed current 0 interval).2 = true) ∧
    (∀ current last interval : Int, 0 ≤ interval → current ≠ 0 →
      (secondsElapsedAndUpdate current last interval).2 = true →
      (secondsElapsed current
        (secondsElapsedAndUpdate current last interval).1 interval).2 = false) := by
  constructor
  · intro current interval
    simp [secondsElapsed]
  · intro current last interval hi hc hu
    have h : last = 0 ∨ current - last > interval := by
      by_contra hcon
      simp [secondsElapsedAndUpdate, if_neg hcon] at hu
    simp only [secondsElapsedAndUpdate, if_pos h, secondsElapsed]
    rw [if_neg]
    push_neg
    exact ⟨hc, by omega⟩

/-- Witness for the amended debounce contract at concrete inputs. -/
theorem debounce_contract_witness :
    (secondsElapsed 7 0 2).2 = true ∧
    (secondsElapsed 5 (secondsElapsedAndUpdate 5 0 3).1 3).2 = false :=
  ⟨debounce_contract.1 7 2,
   debounce_contract.2 5 0 3 (by decide) (by decide) (by decide)⟩

/-! ### C10: secondsElapsed never writes its reference -/

/-- C10: the non-updating check leaves the lastCheck reference exactly as
it was, for every current time, stored value and interval, whatever the
returned boolean; only `secondsElapsedAndUpdate` writes it, and then only
when it returns true. -/
theorem secondsElapsed_frame :
    ∀ current last interval : Int,
      (secondsElapsed current last interval).1 = last ∧
      (secondsElapsedAndUpdate current last interval).1 =
        (if (secondsElapsedAndUpdate current last interval).2 then current else last) := by
  intro current last interval
  by_cases h : last = 0 ∨ current - last > interval <;>
    simp [secondsElapsed, secondsElapsedAndUpdate, h]

/-! ### Orchestrator helper lemmas -/

/-- Every call before the power branches is a sensor/console/web/OTA
call. -/
theorem mem_preEvents (env : TickEnv) (e : Event) (he : e ∈ preEvents env) :
    e = .readVoltage ∨ e = .readBME ∨ e = .sendAT ∨ e = .webServerHandle ∨
    e = .otaHandle := by
  cases hc : env.consolePending <;> cases ho : env.isOtaActive <;>
    simp [preEvents, hc, ho] at he <;> tauto

/-- Every call of the starting branch is a power/session call. -/
theorem mem_startStep (s : TrackerState) (env : TickEnv) (e : Event)
    (he : e ∈ (startStep s env).2) :
    e = .gsmPowerOn ∨ e = .gsmBegin env.beginOk ∨ e = .gsmStop ∨
    e = .gsmPowerOff := by
  unfold startStep at he
  cases hgp : env.gsmPower <;> cases hhp : s.gsmHasPower <;>
    cases hst : s.isStarting <;> cases hsp : s.isStopping <;>
    cases hbo : env.beginOk <;> simp [hgp, hhp, hst, hsp, hbo] at he <;> tauto

/-- Every call of the stopping branch is a session stop or a power cut. -/
theorem mem_stopStep (s : TrackerState) (env : TickEnv) (e : Event)
    (he : e ∈ (stopStep s env).2) :
    e = .gsmStop ∨ e = .gsmPowerOff := by
  unfold stopStep at he
  cases hgp : env.gsmPower <;> cases hhp : s.gsmHasPower <;>
    cases hst : s.isStarting <;> cases hsp : s.isStopping <;>
    simp [hgp, hhp, hst, hsp] at he <;> tauto

/-- Every call of the gsm processing block is a handler call. -/
theorem mem_gsmProcessEvents (s : TrackerState) (env : TickEnv) (e : Event)
    (he : e ∈ gsmProcessEvents s env) :
    e = .gsmHandleClient ∨ e = .smsHandleClient ∨ e = .mqttHandleClient := by
  unfold gsmProcessEvents at he
  cases hhp : s.gsmHasPower <;> cases hst : s.isStarting <;>
    cases hsp : s.isStopping <;> cases hwg : env.waitingForGps <;>
    cases hse : env.isSmsEnabled <;> cases hme : env.isMqttEnabled <;>
    simp [hhp, hst, hsp, hwg, hse, hme] at he <;> tauto

/-- While a GPS fix is pending, the gsm processing block services only the
session itself. -/
theorem mem_gsmProcessEvents_gps (s : TrackerState) (env : TickEnv)
    (h : env.waitingForGps = true) (e : Event)
    (he : e ∈ gsmProcessEvents s env) : e = .gsmHandleClient := by
  unfold gsmProcessEvents at he
  cases hhp : s.gsmHasPower <;> cases hst : s.isStarting <;>
    cases hsp : s.isStopping <;> simp [hhp, hst, hsp, h] at he <;> tauto

/-- While a GPS fix is pending the deep-sleep block does nothing. -/
theorem sleepEvents_gps (env : TickEnv) (h : env.waitingForGps = true) :
    sleepEvents env = [] := by
  simp [sleepEvents, h]

/-- A failed start attempt from the Off state: the tick powers the rail,
attempts `begin()`, synchronously stops the session and cuts power, and
ends with all three flags clear. -/
theorem tick_failed_start (s : TrackerState) (env : TickEnv)
    (hoff : isOff s) (hgp : env.gsmPower = true) (hbo : env.beginOk = false) :
    (tick s env).1 = initialState ∧
    (tick s env).2 =
      preEvents env ++
      [.gsmPowerOn, .gsmBegin false, .gsmStop, .gsmPowerOff] ++
      (gsmProcessEvents initialState env ++ sleepEvents env ++
        [.yieldEv, .delayEv]) := by
  obtain ⟨h1, h2, h3⟩ := hoff
  obtain ⟨hp, st, sp⟩ := s
  simp only at h1 h2 h3
  subst h1; subst h2; subst h3
  constructor
  · simp [tick, startStep, stopStep, hgp, hbo, initialState]
  · simp [tick, startStep, stopStep, hgp, hbo, initialState]

/-- Any tick whose environment demands power and whose begin attempt fails
keeps an Off state Off. -/
theorem tick_keeps_off (s : TrackerState) (env : TickEnv)
    (hoff : isOff s) (hgp : env.gsmPower = true) (hbo : env.beginOk = false) :
    isOff (tick s env).1 := by
  rw [(tick_failed_start s env hoff hgp hbo).1]
  exact ⟨rfl, rfl, rfl⟩

/-- Runs whose every tick demands power with a failing begin keep the state
Off. -/
theorem runTicks_keeps_off (envs : List TickEnv) :
    ∀ s : TrackerState, isOff s →
      (∀ e ∈ envs, e.gsmPower = true ∧ e.beginOk = false) →
      isOff (runTicks s envs) := by
  induction envs with
  | nil => intro s hs _; exact hs
  | cons env rest ih =>
    intro s hs hall
    have henv := hall env (List.mem_cons_self env rest)
    exact ih (tick s env).1 (tick_keeps_off s env hs henv.1 henv.2)
      (fun e he => hall e (List.mem_cons_of_mem env he))

/-! ### C3: no stuck transition on repeated begin failure -/

/-- C3: in every run from the post-setup state in which every tick demands
power on and every session begin attempt fails, the state at the end of
every tick is Off (rail off, neither Starting nor Stopping); and each such
tick performs the attempt and synchronously stops the session and cuts the
power within the same tick, ending Off again, so Starting is never
observable outside the tick performing the attempt. -/
theorem no_stuck_transition :
    (∀ envs : List TickEnv,
      (∀ e ∈ envs, e.gsmPower = true ∧ e.beginOk = false) →
      isOff (runTicks initialState envs)) ∧
    (∀ (s : TrackerState) (env : TickEnv), isOff s →
      env.gsmPower = true → env.beginOk = false →
      isOff (tick s env).1 ∧
      [Event.gsmPowerOn, Event.gsmBegin false, Event.gsmStop,
       Event.gsmPowerOff] <:+: (tick s env).2) := by
  constructor
  · intro envs hall
    exact runTicks_keeps_off envs initialState ⟨rfl, rfl, rfl⟩ hall
  · intro s env hoff hgp hbo
    obtain ⟨hstate, htrace⟩ := tick_failed_start s env hoff hgp hbo
    refine ⟨by rw [hstate]; exact ⟨rfl, rfl, rfl⟩, ?_⟩
    rw [htrace]
    exact ⟨preEvents env,
      gsmProcessEvents initialState env ++ sleepEvents env ++
        [.yieldEv, .delayEv], by simp⟩

/-- Witness for C3 on a concrete one-tick run. -/
theorem no_stuck_transition_witness :
    isOff (runTicks initialState
      [⟨true, false, false, false, false, false, true, true, false, false⟩]) ∧
    isOff (tick initialState
      ⟨true, false, false, false, false, false, true, true, false, false⟩).1 :=
  ⟨no_stuck_transition.1 _ (by intro e he; simp at he; rw [he]; exact ⟨rfl, rfl⟩),
   (no_stuck_transition.2 initialState _ ⟨rfl, rfl, rfl⟩ rfl rfl).1⟩

/-! ### C4: GPS-pending gating -/

/-- C4: in every tick in which the session reports a pending GPS fix,
neither the SMS handler nor the MQTT handler is called, and the deep-sleep
sequence is not entered, whatever the rest of the state and environment. -/
theorem gps_pending_gates :
    ∀ (s : TrackerState) (env : TickEnv), env.waitingForGps = true →
      Event.smsHandleClient ∉ (tick s env).2 ∧
      Event.mqttHandleClient ∉ (tick s env).2 ∧
      Event.deepSleepStart ∉ (tick s env).2 := by
  intro s env h
  have hsleep := sleepEvents_gps env h
  refine ⟨?_, ?_, ?_⟩ <;>
  · intro hmem
    simp only [tick] at hmem
    rcases List.mem_append.mp hmem with hr1 | h6
    swap
    · simp at h6
    rcases List.mem_append.mp hr1 with hr2 | h5
    swap
    · rw [hsleep] at h5
      simp at h5
    rcases List.mem_append.mp hr2 with hr3 | h4
    swap
    · have := mem_gsmProcessEvents_gps _ env h _ h4
      simp at this
    rcases List.mem_append.mp hr3 with hr4 | h3
    swap
    · rcases mem_stopStep _ env _ h3 with h' | h' <;> simp at h'
    rcases List.mem_append.mp hr4 with h1 | h2
    · rcases mem_preEvents env _ h1 with h' | h' | h' | h' | h' <;> simp at h'
    · rcases mem_startStep s env _ h2 with h' | h' | h' | h' <;> simp at h'

/-- Witness for C4 at a concrete state and environment. -/
theorem gps_pending_gates_witness :
    Event.smsHandleClient ∉
      (tick ⟨true, false, false⟩
        ⟨true, true, true, false, true, true, true, true, true, true⟩).2 :=
  (gps_pending_gates ⟨true, false, false⟩
    ⟨true, true, true, false, true, true, true, true, true, true⟩ rfl).1

/-! ### C5: deep-sleep shutdown ordering -/

/-- C5: whenever the sleep decision fires (no pending GPS fix, no pending
MQTT send, scheduler demands sleep), the tick's calls end with, in strict
order: the session stop exactly when the session reports itself active,
the modem power cut, the wireless disconnect and radio off, one yield, and
the suspend entry; and no suspend entry occurs before this sequence, so
the suspend is never entered while the session reports itself active
without a stop call immediately preceding the shutdown. -/
theorem sleep_shutdown_order :
    ∀ (s : TrackerState) (env : TickEnv),
      env.waitingForGps = false → env.waitingForMqtt = false →
      env.haveToSleep = true →
      ∃ pre,
        (tick s env).2 =
          pre ++
          ((if env.isGsmActive then [Event.gsmStop] else []) ++
           [Event.gsmPowerOff, Event.wifiDisconnect, Event.wifiModeOff,
            Event.yieldEv, Event.deepSleepStart]) ++
          [Event.yieldEv, Event.delayEv] ∧
        Event.deepSleepStart ∉ pre := by
  intro s env hg hm hs
  refine ⟨preEvents env ++ (startStep s env).2 ++
    (stopStep (startStep s env).1 env).2 ++
    gsmProcessEvents (stopStep (startStep s env).1 env).1 env, ?_, ?_⟩
  · simp [tick, sleepEvents, hg, hm, hs, sleepShutdownEvents]
  · intro hmem
    simp only [List.mem_append] at hmem
    rcases hmem with ((h1 | h2) | h3) | h4
    · rcases mem_preEvents env _ h1 with h' | h' | h' | h' | h' <;> simp at h'
    · rcases mem_startStep s env _ h2 with h' | h' | h' | h' <;> simp at h'
    · rcases mem_stopStep _ env _ h3 with h' | h' <;> simp at h'
    · rcases mem_gsmProcessEvents _ env _ h4 with h' | h' | h' <;> simp at h'

/-- Witness for C5 at a concrete state and environment with an active
session. -/
theorem sleep_shutdown_order_witness :
    ∃ pre,
      (tick ⟨true, false, false⟩
        ⟨true, true, false, false, true, true, true, true, true, true⟩).2 =
        pre ++
        ([Event.gsmStop] ++
         [Event.gsmPowerOff, Event.wifiDisconnect, Event.wifiModeOff,
          Event.yieldEv, Event.deepSleepStart]) ++
        [Event.yieldEv, Event.delayEv] ∧
      Event.deepSleepStart ∉ pre := by
  have h := sleep_shutdown_order ⟨true, false, false⟩
    ⟨true, true, false, false, true, true, true, true, true, true⟩ rfl rfl rfl
  simpa using h

/-! ### Digit and atol lemmas -/

/-- Value of the digit character of a value below ten. -/
theorem digitCharC_toNat (d : Nat) (h : d < 10) :
    (digitCharC d).toNat = 48 + d := by
  interval_cases d <;> rfl

/-- The digit character of a value below ten is a digit. -/
theorem isDigitC_digitCharC (d : Nat) (h : d < 10) :
    isDigitC (digitCharC d) = true := by
  interval_cases d <;> rfl

/-- A digit character is none of the separator characters the codec looks
for, and is not whitespace. -/
theorem isDigitC_ne (c : Char) (h : isDigitC c = true) :
    c ≠ ':' ∧ c ≠ ' ' ∧ c ≠ '-' ∧ c ≠ '+' ∧ isSpaceC c = false := by
  refine ⟨fun hc => ?_, fun hc => ?_, fun hc => ?_, fun hc => ?_, ?_⟩
  · subst hc; exact absurd h (by decide)
  · subst hc; exact absurd h (by decide)
  · subst hc; exact absurd h (by decide)
  · subst hc; exact absurd h (by decide)
  · simp only [isDigitC, Bool.and_eq_true, decide_eq_true_eq] at h
    simp only [isSpaceC]
    simp only [Bool.or_eq_false_iff, beq_eq_false_iff_ne, ne_eq]
    omega

/-- The decimal rendering is never empty. -/
theorem natDecimal_ne_nil (n : Nat) : natDecimal n ≠ [] := by
  rw [natDecimal]
  split <;> simp

/-- Every character of the decimal rendering is a digit. -/
theorem natDecimal_digits (n : Nat) : ∀ c ∈ natDecimal n, isDigitC c = true := by
  induction n using Nat.strong_induction_on with
  | _ n ih =>
    rw [natDecimal]
    split
    · next h =>
      intro c hc
      simp only [List.mem_singleton] at hc
      subst hc
      exact isDigitC_digitCharC n h
    · next h =>
      intro c hc
      rw [List.mem_append] at hc
      rcases hc with hc | hc
      · exact ih (n / 10) (by omega) c hc
      · simp only [List.mem_singleton] at hc
        subst hc
        exact isDigitC_digitCharC (n % 10) (by omega)

/-- Appending one character multiplies the accumulated value by ten. -/
theorem digitsVal_append_singleton (l : List Char) (c : Char) :
    digitsVal (l ++ [c]) = 10 * digitsVal l + (c.toNat - 48) := by
  simp [digitsVal, List.foldl_append]

/-- The digit value of the decimal rendering is the rendered number. -/
theorem digitsVal_natDecimal (n : Nat) : digitsVal (natDecimal n) = n := by
  induction n using Nat.strong_induction_on with
  | _ n ih =>
    rw [natDecimal]
    split
    · next h =>
      simp [digitsVal, digitCharC_toNat n h]
    · next h =>
      rw [digitsVal_append_singleton, ih (n / 10) (by omega),
        digitCharC_toNat (n % 10) (by omega)]
      omega

/-- Dropping while a predicate holds does nothing when the head fails it. -/
theorem dropWhile_cons_false (p : Char → Bool) (c : Char) (l : List Char)
    (h : p c = false) : List.dropWhile p (c :: l) = c :: l := by
  rw [List.dropWhile_cons, if_neg (by simp [h])]

/-- The C `atol` of a nonempty all-digit string is its digit value. -/
theorem atol_digits (l : List Char) (hne : l ≠ [])
    (hd : ∀ c ∈ l, isDigitC c = true) :
    atol l = (digitsVal l : Int) := by
  obtain ⟨c, rest, rfl⟩ := List.exists_cons_of_ne_nil hne
  have hc := hd c (List.mem_cons_self c rest)
  obtain ⟨-, -, hminus, hplus, hspace⟩ := isDigitC_ne c hc
  have htake : List.takeWhile isDigitC (c :: rest) = c :: rest :=
    List.takeWhile_eq_self_iff.mpr hd
  rw [atol, dropWhile_cons_false isSpaceC c rest hspace]
  simp only [hminus, hplus, htake, if_false, ite_false, if_neg]

/-- The C `atol` of two digit characters. -/
theorem atol_two_digits (x y : Nat) (hx : x < 10) (hy : y < 10) :
    atol [digitCharC x, digitCharC y] = ((10 * x + y : Nat) : Int) := by
  rw [atol_digits [digitCharC x, digitCharC y] (by simp)
    (by intro c hc
        simp only [List.mem_cons, List.mem_singleton, List.not_mem_nil, or_false] at hc
        rcases hc with rfl | rfl
        · exact isDigitC_digitCharC x hx
        · exact isDigitC_digitCharC y hy)]
  simp [digitsVal, digitCharC_toNat x hx, digitCharC_toNat y hy]

/-- The C `atol` of the decimal rendering recovers the number. -/
theorem atol_natDecimal (n : Nat) : atol (natDecimal n) = (n : Int) := by
  rw [atol_digits (natDecimal n) (natDecimal_ne_nil n) (natDecimal_digits n),
    digitsVal_natDecimal]

/-! ### Trim and index lemmas -/

/-- Trimming does nothing when the first and last characters are not in
the trim set. -/
theorem Trim_id_append (x y : Char) (mid chars : List Char)
    (hx : chars.contains x = false) (hy : chars.contains y = false) :
    Trim (x :: (mid ++ [y])) chars = x :: (mid ++ [y]) := by
  unfold Trim
  rw [dropWhile_cons_false _ x (mid ++ [y]) hx]
  have hsplit : x :: (mid ++ [y]) = (x :: mid) ++ [y] := by simp
  rw [hsplit, List.rdropWhile_concat_neg _ _ y
    (by show ¬(List.contains chars y = true)
        rw [hy]
        exact Bool.false_ne_true)]

/-- Searching across a block free of the sought character shifts the index
by the block's length. -/
theorem findIdxC_append (c : Char) (l r : List Char)
    (h : ∀ x ∈ l, x ≠ c) :
    findIdxC c (l ++ r) = (findIdxC c r).map (l.length + ·) := by
  induction l with
  | nil =>
    simp only [List.nil_append, List.length_nil]
    cases findIdxC c r <;> simp
  | cons a t ih =>
    have ha : a ≠ c := h a (List.mem_cons_self a t)
    rw [List.cons_append, findIdxC, if_neg ha,
      ih (fun x hx => h x (List.mem_cons_of_mem a hx))]
    cases findIdxC c r <;> simp <;> omega

/-- Shape of `parseFields` on an `HH:MM:SS` digit string. -/
theorem parseFields_hms (a b c d e f : Char)
    (ha : isDigitC a = true) (hb : isDigitC b = true) (hc : isDigitC c = true)
    (hd : isDigitC d = true) (he : isDigitC e = true) (hf : isDigitC f = true) :
    parseFields [a, b, ':', c, d, ':', e, f] =
      some (0, atol [a, b], atol [c, d], atol [e, f]) := by
  obtain ⟨ha1, ha2, -, -, -⟩ := isDigitC_ne a ha
  obtain ⟨hb1, hb2, -, -, -⟩ := isDigitC_ne b hb
  obtain ⟨hc1, hc2, -, -, -⟩ := isDigitC_ne c hc
  obtain ⟨hd1, hd2, -, -, -⟩ := isDigitC_ne d hd
  obtain ⟨he1, he2, -, -, -⟩ := isDigitC_ne e he
  obtain ⟨hf1, hf2, -, -, -⟩ := isDigitC_ne f hf
  have htrim : Trim [a, b, ':', c, d, ':', e, f] [' '] =
      [a, b, ':', c, d, ':', e, f] := by
    have := Trim_id_append a f [b, ':', c, d, ':', e] [' ']
      (by simp [ha2]) (by simp [hf2])
    simpa using this
  simp only [parseFields, htrim, indexOfFrom, List.drop]
  simp only [findIdxC, ha1, hb1, hc1, hd1, he1, hf1, ha2, hb2, hc2, hd2,
    he2, hf2, if_neg, if_true, if_false, ite_false, ite_true, Option.map]
  norm_num
  simp [substringC, substringFrom, atol]

/-- Shape of `parseFields` on a `D HH:MM:SS` string with an all-digit day
block. -/
theorem parseFields_dhms (ds : List Char) (a b c d e f : Char)
    (hds : ∀ x ∈ ds, isDigitC x = true) (hne : ds ≠ [])
    (ha : isDigitC a = true) (hb : isDigitC b = true) (hc : isDigitC c = true)
    (hd : isDigitC d = true) (he : isDigitC e = true) (hf : isDigitC f = true) :
    parseFields (ds ++ [' ', a, b, ':', c, d, ':', e, f]) =
      some (atol ds, atol [a, b], atol [c, d], atol [e, f]) := by
  obtain ⟨ha1, ha2, -, -, -⟩ := isDigitC_ne a ha
  obtain ⟨hb1, hb2, -, -, -⟩ := isDigitC_ne b hb
  obtain ⟨hc1, hc2, -, -, -⟩ := isDigitC_ne c hc
  obtain ⟨hd1, hd2, -, -, -⟩ := isDigitC_ne d hd
  obtain ⟨he1, he2, -, -, -⟩ := isDigitC_ne e he
  obtain ⟨hf1, hf2, -, -, -⟩ := isDigitC_ne f hf
  have hcolon : ∀ x ∈ ds, x ≠ ':' := fun x hx => (isDigitC_ne x (hds x hx)).1
  have hspace : ∀ x ∈ ds, x ≠ ' ' := fun x hx => (isDigitC_ne x (hds x hx)).2.1
  have hsc : (' ' : Char) ≠ ':' := by decide
  have htrim : Trim (ds ++ [' ', a, b, ':', c, d, ':', e, f]) [' '] =
      ds ++ [' ', a, b, ':', c, d, ':', e, f] := by
    obtain ⟨x, t, rfl⟩ := List.exists_cons_of_ne_nil hne
    have hx2 : x ≠ ' ' := hspace x (List.mem_cons_self x t)
    have hshape : (x :: t) ++ [' ', a, b, ':', c, d, ':', e, f] =
        x :: ((t ++ [' ', a, b, ':', c, d, ':', e]) ++ [f]) := by simp
    rw [hshape, Trim_id_append x f _ [' '] (by simp [hx2]) (by simp [hf2])]
  have h1 : indexOfFrom (ds ++ [' ', a, b, ':', c, d, ':', e, f]) ':' 0 =
      some (ds.length + 3) := by
    unfold indexOfFrom
    rw [List.drop_zero, findIdxC_append ':' ds _ hcolon]
    have : findIdxC ':' [' ', a, b, ':', c, d, ':', e, f] = some 3 := by
      simp [findIdxC, hsc, ha1, hb1]
    rw [this]
    simp
  have h2 : indexOfFrom (ds ++ [' ', a, b, ':', c, d, ':', e, f]) ':'
      (ds.length + 3 + 1) = some (ds.length + 6) := by
    unfold indexOfFrom
    rw [show ds.length + 3 + 1 = ds.length + 4 from rfl, List.drop_append 4]
    have : List.drop 4 [' ', a, b, ':', c, d, ':', e, f] = [c, d, ':', e, f] := rfl
    rw [this]
    have : findIdxC ':' [c, d, ':', e, f] = some 2 := by
      simp [findIdxC, hc1, hd1]
    rw [this]
    show some (ds.length + 3 + 1 + 2) = some (ds.length + 6)
    exact congrArg some (by omega)
  have h3 : indexOfFrom (ds ++ [' ', a, b, ':', c, d, ':', e, f]) ' ' 0 =
      some ds.length := by
    unfold indexOfFrom
    rw [List.drop_zero, findIdxC_append ' ' ds _ hspace]
    have : findIdxC ' ' [' ', a, b, ':', c, d, ':', e, f] = some 0 := by
      simp [findIdxC]
    rw [this]
    simp
  have h4 : substringC (ds ++ [' ', a, b, ':', c, d, ':', e, f]) 0 ds.length
      = ds := by
    simp [substringC, List.take_left]
  have h5 : substringC (ds ++ [' ', a, b, ':', c, d, ':', e, f])
      (ds.length + 1) (ds.length + 3) = [a, b] := by
    unfold substringC
    rw [List.drop_append 1, show ds.length + 3 - (ds.length + 1) = 2 by omega]
    rfl
  have h6 : substringC (ds ++ [' ', a, b, ':', c, d, ':', e, f])
      (ds.length + 3 + 1) (ds.length + 6) = [c, d] := by
    unfold substringC
    rw [show ds.length + 3 + 1 = ds.length + 4 from rfl, List.drop_append 4,
      show ds.length + 6 - (ds.length + 4) = 2 by omega]
    rfl
  have h7 : substringFrom (ds ++ [' ', a, b, ':', c, d, ':', e, f])
      (ds.length + 6 + 1) = [e, f] := by
    unfold substringFrom
    rw [show ds.length + 6 + 1 = ds.length + 7 from rfl, List.drop_append 7]
    rfl
  have hlt : ds.length < ds.length + 3 := by omega
  simp only [parseFields, htrim, h1, h2, h3, hlt, if_true, h4, h5, h6, h7]

/-- The `%02d` rendering of a value below 100 is exactly two digit
characters. -/
theorem sprintf02_eq (n : Nat) (h : n < 100) :
    sprintf02 ((n : Nat) : Int) = [digitCharC (n / 10), digitCharC (n % 10)] := by
  by_cases h10 : n < 10
  · have hcond : (0 : Int) ≤ (n : Int) ∧ (n : Int) < 10 :=
      ⟨Int.natCast_nonneg n, by exact_mod_cast h10⟩
    rw [sprintf02, if_pos hcond, Int.toNat_ofNat, natDecimal, dif_pos h10,
      show n / 10 = 0 by omega, show n % 10 = n by omega]
    rfl
  · have hcond : ¬((0 : Int) ≤ (n : Int) ∧ (n : Int) < 10) := by
      push_neg
      intro _
      exact_mod_cast Nat.le_of_not_lt h10
    rw [sprintf02, if_neg hcond, sprintfD,
      if_neg (not_lt.mpr (Int.natCast_nonneg n)), Int.toNat_ofNat,
      natDecimal, dif_neg h10]
    rw [show natDecimal (n / 10) = [digitCharC (n / 10)] by
      rw [natDecimal, dif_pos (show n / 10 < 10 by omega)]]
    rfl

/-- Shape of the format output on a non-negative number of seconds: two
digits for each of hours, minutes, seconds, and a decimal day block with a
space only when the day count is positive. -/
theorem formatInterval_ofNat (n : Nat) :
    formatInterval ((n : Nat) : Int) =
      if n / 60 / 60 / 24 = 0 then
        [digitCharC (n / 60 / 60 % 24 / 10), digitCharC (n / 60 / 60 % 24 % 10), ':',
         digitCharC (n / 60 % 60 / 10), digitCharC (n / 60 % 60 % 10), ':',
         digitCharC (n % 60 / 10), digitCharC (n % 60 % 10)]
      else
        natDecimal (n / 60 / 60 / 24) ++
          [' ', digitCharC (n / 60 / 60 % 24 / 10), digitCharC (n / 60 / 60 % 24 % 10), ':',
           digitCharC (n / 60 % 60 / 10), digitCharC (n / 60 % 60 % 10), ':',
           digitCharC (n % 60 / 10), digitCharC (n % 60 % 10)] := by
  have hdays : (((((n : Nat) : Int)).tdiv 60).tdiv 60).tdiv 24 =
      ((n / 60 / 60 / 24 : Nat) : Int) := rfl
  have hhours : (((((n : Nat) : Int)).tdiv 60).tdiv 60).tmod 24 =
      ((n / 60 / 60 % 24 : Nat) : Int) := rfl
  have hmins : ((((n : Nat) : Int)).tdiv 60).tmod 60 =
      ((n / 60 % 60 : Nat) : Int) := rfl
  have hsecs : (((n : Nat) : Int)).tmod 60 = ((n % 60 : Nat) : Int) := rfl
  rw [formatInterval]
  simp only [hdays, hhours, hmins, hsecs]
  by_cases hD : n / 60 / 60 / 24 = 0
  · rw [if_pos hD, if_pos (by rw [hD]; exact le_refl 0),
      sprintf02_eq _ (by omega), sprintf02_eq _ (by omega),
      sprintf02_eq _ (by omega)]
    rfl
  · rw [if_neg hD, if_neg (by
        intro hcon
        exact hD (by exact_mod_cast le_antisymm hcon (Int.natCast_nonneg _))),
      sprintf02_eq _ (by omega), sprintf02_eq _ (by omega),
      sprintf02_eq _ (by omega), sprintfD,
      if_neg (not_lt.mpr (Int.natCast_nonneg _)), Int.toNat_ofNat]
    rfl

/-! ### C1: round-trip of the interval codec -/

/-- C1: for every non-negative number of seconds (in particular all of
[0, 9999999]), scanning the formatted interval succeeds and returns
exactly the original value, whatever the previous content of the
by-reference output. -/
theorem scanInterval_formatInterval_roundtrip :
    ∀ s : Int, 0 ≤ s → ∀ r : Int, scanInterval (formatInterval s) r = (s, true) := by
  intro s hs r
  lift s to Nat using hs with n
  rw [formatInterval_ofNat n]
  have hH10 : n / 60 / 60 % 24 / 10 < 10 := by omega
  have hH1 : n / 60 / 60 % 24 % 10 < 10 := by omega
  have hM10 : n / 60 % 60 / 10 < 10 := by omega
  have hM1 : n / 60 % 60 % 10 < 10 := by omega
  have hS10 : n % 60 / 10 < 10 := by omega
  have hS1 : n % 60 % 10 < 10 := by omega
  by_cases hD : n / 60 / 60 / 24 = 0
  · rw [if_pos hD]
    have hp := parseFields_hms
      (digitCharC (n / 60 / 60 % 24 / 10)) (digitCharC (n / 60 / 60 % 24 % 10))
      (digitCharC (n / 60 % 60 / 10)) (digitCharC (n / 60 % 60 % 10))
      (digitCharC (n % 60 / 10)) (digitCharC (n % 60 % 10))
      (isDigitC_digitCharC _ hH10) (isDigitC_digitCharC _ hH1)
      (isDigitC_digitCharC _ hM10) (isDigitC_digitCharC _ hM1)
      (isDigitC_digitCharC _ hS10) (isDigitC_digitCharC _ hS1)
    rw [atol_two_digits _ _ hH10 hH1, atol_two_digits _ _ hM10 hM1,
      atol_two_digits _ _ hS10 hS1,
      show 10 * (n / 60 / 60 % 24 / 10) + n / 60 / 60 % 24 % 10 =
        n / 60 / 60 % 24 by omega,
      show 10 * (n / 60 % 60 / 10) + n / 60 % 60 % 10 = n / 60 % 60 by omega,
      show 10 * (n % 60 / 10) + n % 60 % 10 = n % 60 by omega] at hp
    simp only [scanInterval, hp]
    split
    · congr 1
      omega
    · next hfalse => exact (hfalse (by omega)).elim
  · rw [if_neg hD]
    have hp := parseFields_dhms (natDecimal (n / 60 / 60 / 24))
      (digitCharC (n / 60 / 60 % 24 / 10)) (digitCharC (n / 60 / 60 % 24 % 10))
      (digitCharC (n / 60 % 60 / 10)) (digitCharC (n / 60 % 60 % 10))
      (digitCharC (n % 60 / 10)) (digitCharC (n % 60 % 10))
      (natDecimal_digits _) (natDecimal_ne_nil _)
      (isDigitC_digitCharC _ hH10) (isDigitC_digitCharC _ hH1)
      (isDigitC_digitCharC _ hM10) (isDigitC_digitCharC _ hM1)
      (isDigitC_digitCharC _ hS10) (isDigitC_digitCharC _ hS1)
    rw [atol_natDecimal, atol_two_digits _ _ hH10 hH1,
      atol_two_digits _ _ hM10 hM1, atol_two_digits _ _ hS10 hS1,
      show 10 * (n / 60 / 60 % 24 / 10) + n / 60 / 60 % 24 % 10 =
        n / 60 / 60 % 24 by omega,
      show 10 * (n / 60 % 60 / 10) + n / 60 % 60 % 10 = n / 60 % 60 by omega,
      show 10 * (n % 60 / 10) + n % 60 % 10 = n % 60 by omega] at hp
    simp only [scanInterval, hp]
    split
    · congr 1
      omega
    · next hfalse => exact (hfalse (by omega)).elim

/-- Witness for the round-trip theorem at a concrete day-carrying value. -/
theorem scanInterval_formatInterval_roundtrip_witness :
    scanInterval (formatInterval 90061) 7 = (90061, true) :=
  scanInterval_formatInterval_roundtrip 90061 (by decide) 7

/-! ### Colon-count lemmas for the failure contract -/

/-- Dropping characters that are never the counted one preserves the
count. -/
theorem count_dropWhile (p : Char → Bool) (c : Char) (l : List Char)
    (h : ∀ x, p x = true → x ≠ c) :
    List.count c (List.dropWhile p l) = List.count c l := by
  induction l with
  | nil => rfl
  | cons a t ih =>
    by_cases hp : p a = true
    · rw [List.dropWhile_cons, if_pos hp, ih, List.count_cons,
        show (a == c) = false from beq_eq_false_iff_ne.mpr (h a hp)]
      simp
    · rw [List.dropWhile_cons, if_neg hp]

/-- Trimming characters other than the counted one preserves the count. -/
theorem count_Trim (c : Char) (l chars : List Char)
    (h : chars.contains c = false) :
    List.count c (Trim l chars) = List.count c l := by
  have hcnt1 : ∀ x, (fun y => List.contains chars y) x = true → x ≠ c := by
    intro x hx hxc
    have hx' : chars.contains x = true := hx
    subst hxc
    rw [h] at hx'
    exact Bool.false_ne_true hx'
  simp only [Trim, List.rdropWhile]
  rw [List.count_reverse, count_dropWhile _ c _ hcnt1, List.count_reverse,
    count_dropWhile _ c _ hcnt1]

/-- A character with zero occurrences is never found. -/
theorem findIdxC_none_of_count (c : Char) (l : List Char)
    (h : List.count c l = 0) : findIdxC c l = none := by
  induction l with
  | nil => rfl
  | cons a t ih =>
    rw [List.count_cons] at h
    have hac : a ≠ c := by
      intro hcon
      subst hcon
      simp at h
    rw [findIdxC, if_neg hac, ih (by simpa [hac] using h)]
    rfl

/-- Finding the first occurrence splits off exactly one occurrence from
the remainder after it. -/
theorem count_drop_of_findIdxC (c : Char) :
    ∀ (l : List Char) (i : Nat), findIdxC c l = some i →
      List.count c l = List.count c (l.drop (i + 1)) + 1 := by
  intro l
  induction l with
  | nil =>
    intro i h
    simp [findIdxC] at h
  | cons a t ih =>
    intro i h
    rw [findIdxC] at h
    by_cases hac : a = c
    · rw [if_pos hac] at h
      have hi : i = 0 := by
        injection h with h'
        omega
      subst hi
      subst hac
      rw [List.count_cons, List.drop_succ_cons, List.drop_zero]
      simp
    · rw [if_neg hac] at h
      cases hf : findIdxC c t with
      | none =>
        rw [hf] at h
        simp at h
      | some j =>
        rw [hf] at h
        simp only [Option.map_some'] at h
        injection h with h'
        subst h'
        rw [List.count_cons,
          show (a == c) = false from beq_eq_false_iff_ne.mpr hac,
          List.drop_succ_cons]
        simpa using ih j hf

/-- Fewer than two colons in the raw input make the field extraction
fail. -/
theorem parseFields_none_of_count (input : List Char)
    (h : List.count ':' input < 2) : parseFields input = none := by
  have hcnt : List.count ':' (Trim input [' ']) < 2 := by
    rw [count_Trim ':' input [' '] (by decide)]
    exact h
  cases hf : findIdxC ':' (Trim input [' ']) with
  | none => simp [parseFields, indexOfFrom, hf]
  | some i =>
    have hdrop : List.count ':' ((Trim input [' ']).drop (i + 1)) = 0 := by
      have := count_drop_of_findIdxC ':' _ i hf
      omega
    have hsecond : findIdxC ':' ((Trim input [' ']).drop (i + 1)) = none :=
      findIdxC_none_of_count _ _ hdrop
    simp [parseFields, indexOfFrom, hf, hsecond]

/-! ### C6: the parse failure contract -/

/-- C6: the scan returns failure and leaves the by-reference output
untouched whenever the input has fewer than two colons, or whenever the
extracted fields violate the ranges (days < 0, hours outside [0,23],
minutes or seconds outside [0,59]); in particular "25:00:00" fails, while
"1 12:30:45" succeeds with 1*86400+12*3600+30*60+45 seconds. -/
theorem scanInterval_failure_contract :
    (∀ (input : List Char) (secs0 : Int), List.count ':' input < 2 →
       scanInterval input secs0 = (secs0, false)) ∧
    (∀ (input : List Char) (secs0 d h m s : Int),
       parseFields input = some (d, h, m, s) →
       ¬(0 ≤ d ∧ 0 ≤ h ∧ h ≤ 23 ∧ 0 ≤ m ∧ m ≤ 59 ∧ 0 ≤ s ∧ s ≤ 59) →
       scanInterval input secs0 = (secs0, false)) ∧
    (∀ secs0 : Int, scanInterval ("25:00:00".toList) secs0 = (secs0, false)) ∧
    (∀ secs0 : Int,
       scanInterval ("1 12:30:45".toList) secs0 =
         (1 * 86400 + 12 * 3600 + 30 * 60 + 45, true)) := by
  refine ⟨?_, ?_, ?_, ?_⟩
  · intro input secs0 h
    simp [scanInterval, parseFields_none_of_count input h]
  · intro input secs0 d h m s hp hrange
    simp only [scanInterval, hp]
    rw [if_neg hrange]
  · intro secs0
    have hp : parseFields ("25:00:00".toList) = some (0, 25, 0, 0) := by decide
    simp only [scanInterval, hp]
    rw [if_neg (by decide)]
  · intro secs0
    have hp : parseFields ("1 12:30:45".toList) = some (1, 12, 30, 45) := by decide
    simp only [scanInterval, hp]
    rw [if_pos (by decide)]
    norm_num

/-- Witness for the failure contract: a one-character input fails with the
output untouched, and the out-of-range hours example fails. -/
theorem scanInterval_failure_contract_witness :
    scanInterval ['x'] 3 = (3, false) ∧
    scanInterval ("25:00:00".toList) 5 = (5, false) :=
  ⟨scanInterval_failure_contract.1 ['x'] 3 (by decide),
   scanInterval_failure_contract.2.1 ("25:00:00".toList) 5 0 25 0 0
     (by decide) (by decide)⟩

/-! ### C9: non-numeric segments are accepted -/

/-- C9: the scan never checks that its segments are numeric: whenever the
extracted fields (the `atol` values of the segments, 0 for a segment
without leading digits) are in range, it succeeds with their weighted sum;
in particular "::" and "ab:cd:ef" parse successfully to 0 seconds. -/
theorem scanInterval_accepts_nonNumeric :
    (∀ (input : List Char) (secs0 d h m s : Int),
       parseFields input = some (d, h, m, s) →
       0 ≤ d → 0 ≤ h → h ≤ 23 → 0 ≤ m → m ≤ 59 → 0 ≤ s → s ≤ 59 →
       scanInterval input secs0 =
         (d * 24 * 60 * 60 + h * 60 * 60 + m * 60 + s, true)) ∧
    (∀ secs0 : Int, scanInterval ("::".toList) secs0 = (0, true)) ∧
    (∀ secs0 : Int, scanInterval ("ab:cd:ef".toList) secs0 = (0, true)) := by
  refine ⟨?_, ?_, ?_⟩
  · intro input secs0 d h m s hp h1 h2 h3 h4 h5 h6 h7
    simp only [scanInterval, hp]
    rw [if_pos ⟨h1, h2, h3, h4, h5, h6, h7⟩]
  · intro secs0
    have hp : parseFields ("::".toList) = some (0, 0, 0, 0) := by decide
    simp only [scanInterval, hp]
    rw [if_pos (by decide)]
    norm_num
  · intro secs0
    have hp : parseFields ("ab:cd:ef".toList) = some (0, 0, 0, 0) := by decide
    simp only [scanInterval, hp]
    rw [if_pos (by decide)]
    norm_num

/-- Witness for the non-numeric acceptance at the "::" input. -/
theorem scanInterval_accepts_nonNumeric_witness :
    scanInterval ("::".toList) 9 =
      (0 * 24 * 60 * 60 + 0 * 60 * 60 + 0 * 60 + 0, true) :=
  scanInterval_accepts_nonNumeric.1 ("::".toList) 9 0 0 0 0 (by decide)
    (by decide) (by decide) (by decide) (by decide) (by decide) (by decide)
    (by decide)
